import Mathlib

/-!
Verification of the emitter registration lifecycle (`src/rpc_server.rs`).

The embedding mirrors the Rust source. External value types from
`ckb_jsonrpc_types` (`Script`, `H256`, `Uint64`) are used by the code only
as opaque values compared by equality, so they are modelled as wrappers
around `Nat`; `Uint64` carries no arithmetic here beyond the one `>`
comparison, so `Nat` is adequate. The two `DashMap`s are modelled as
association lists with map semantics (insert replaces, remove deletes the
key). The `AtomicPtr`-based `ScanTip` cell is modelled as an index into a
heap of `IndexerTip` values carried in the service state, so that cell
identity (the `Arc` sharing between the registration table and the spawned
`CellProcess`) is observable. The fallible `RpcClient` calls are modelled
as oracle responses carried by a `RpcClient` record; `tokio::spawn` is
modelled by appending the spawned `CellProcess` to an append-only log.
-/

namespace Emitter

/-- External opaque script descriptor (`ckb_jsonrpc_types::Script`);
the emitter code only clones, hashes and compares it. -/
structure Script where
  raw : Nat
deriving DecidableEq, Repr

/-- External opaque 256-bit hash (`ckb_types::H256`). -/
structure H256 where
  raw : Nat
deriving DecidableEq, Repr

/-- `Uint64` / `BlockNumber`: only equality and one `>` comparison are used,
so `Nat` models it faithfully. -/
abbrev Uint64 := Nat

/-- `rpc_client::ScriptType` (declared outside `src/`, a two-variant tag). -/
inductive ScriptType where
  | lock
  | type
deriving DecidableEq, Repr

/-- `rpc_client::SearchKeyFilter`, field layout as constructed in
`RpcSearchKeyFilter::into_filter`. -/
structure SearchKeyFilter where
  script : Option Script
  script_len_range : Option (Uint64 × Uint64)
  output_data_len_range : Option (Uint64 × Uint64)
  output_capacity_range : Option (Uint64 × Uint64)
  block_range : Option (Uint64 × Uint64)
deriving DecidableEq, Repr

/-- `rpc_client::SearchKey`, field layout as constructed in
`RpcSearchKey::into_key`. -/
structure SearchKey where
  script : Script
  script_type : ScriptType
  filter : Option SearchKeyFilter
  with_data : Option Bool
  group_by_transaction : Option Bool
deriving DecidableEq, Repr

/-- `RpcSearchKeyFilter` from `rpc_server.rs`. -/
structure RpcSearchKeyFilter where
  script : Option Script
  script_len_range : Option (Uint64 × Uint64)
  output_data_len_range : Option (Uint64 × Uint64)
  output_capacity_range : Option (Uint64 × Uint64)
deriving DecidableEq, Repr

/-- `RpcSearchKeyFilter::default()` (the `Default` derive: all fields `None`). -/
def RpcSearchKeyFilter.default : RpcSearchKeyFilter :=
  { script := none
    script_len_range := none
    output_data_len_range := none
    output_capacity_range := none }

/-- `RpcSearchKeyFilter::into_filter`. -/
def RpcSearchKeyFilter.into_filter (self : RpcSearchKeyFilter)
    (block_range : Option (Uint64 × Uint64)) : SearchKeyFilter :=
  { script := self.script
    script_len_range := self.script_len_range
    output_data_len_range := self.output_data_len_range
    output_capacity_range := self.output_capacity_range
    block_range := block_range }

/-- `RpcSearchKey` from `rpc_server.rs`. -/
structure RpcSearchKey where
  script : Script
  script_type : ScriptType
  filter : Option RpcSearchKeyFilter
deriving DecidableEq, Repr

/-- `RpcSearchKey::into_key`. -/
def RpcSearchKey.into_key (self : RpcSearchKey)
    (block_range : Option (Uint64 × Uint64)) : SearchKey :=
  { script := self.script
    script_type := self.script_type
    filter :=
      if self.filter.isSome then
        self.filter.map (fun f => f.into_filter block_range)
      else
        some (RpcSearchKeyFilter.default.into_filter block_range)
    with_data := none
    group_by_transaction := some true }

/-- `rpc_client::IndexerTip`, fields as read in `register`. -/
structure IndexerTip where
  block_hash : H256
  block_number : Uint64
deriving DecidableEq, Repr

/-- Inner part of `ckb_jsonrpc_types::HeaderView` (only `number` is read). -/
structure HeaderInner where
  number : Uint64
deriving DecidableEq, Repr

/-- `ckb_jsonrpc_types::HeaderView` (only `hash` and `inner.number` are read). -/
structure HeaderView where
  hash : H256
  inner : HeaderInner
deriving DecidableEq, Repr

/-- A `ScanTip` is an `Arc`-shared `AtomicPtr` cell holding an `IndexerTip`;
modelled as the identity of the cell: an index into the `cells` heap of
`EmitterState`. -/
abbrev ScanTip := Nat

/-- `cell_process::CellProcess` as constructed in `register`: the spawned
watcher, bound to its key and (shared) `ScanTip` cell. The `RpcClient`
field carries no observable data here and is omitted. -/
structure CellProcess where
  key : RpcSearchKey
  scan_tip : ScanTip
deriving DecidableEq, Repr

/-- `jsonrpsee::core::Error`: only the `Custom(String)` variant is built
by this code (via `map_err(|e| Error::Custom(e.to_string()))`). -/
inductive Error where
  | custom (msg : String)
deriving DecidableEq, Repr

/-- The `RpcClient` collaborator, modelled by the responses its two
fallible calls would return during one `register` execution; an error is
the `to_string()` of the underlying failure. -/
structure RpcClient where
  get_indexer_tip : Except String IndexerTip
  get_header_by_number : Uint64 → Except String HeaderView

/-- First-match association-list lookup (the read view of a `DashMap`). -/
def lookupA {α β : Type} [DecidableEq α] (key : α) : List (α × β) → Option β
  | [] => none
  | (k, v) :: rest => if k = key then some v else lookupA key rest

/-- `DashMap::contains_key`. -/
def containsKeyA {α β : Type} [DecidableEq α] (key : α) (l : List (α × β)) : Bool :=
  (lookupA key l).isSome

/-- `DashMap::remove`, map part: deletes the key's entry. -/
def mapRemove {α β : Type} [DecidableEq α] (key : α) (l : List (α × β)) : List (α × β) :=
  l.filter (fun p => decide (p.1 ≠ key))

/-- `DashMap::insert`: replaces any existing entry for the key. -/
def mapInsert {α β : Type} [DecidableEq α] (key : α) (v : β) (l : List (α × β)) :
    List (α × β) :=
  mapRemove key l ++ [(key, v)]

/-- The shared state of `EmitterRpc`: the `cells` heap gives each
`ScanTip` cell its current `IndexerTip` value; `state` and `cell_handles`
are the two `DashMap`s (a stored `JoinHandle` is identified with the
`CellProcess` it runs); `spawned` is the append-only log of every
`tokio::spawn`. -/
structure EmitterState where
  cells : List IndexerTip
  state : List (RpcSearchKey × ScanTip)
  cell_handles : List (RpcSearchKey × CellProcess)
  spawned : List CellProcess
deriving DecidableEq, Repr

/-- The body of `EmitterRpc::register` after the `contains_key` check:
both awaited lookups, then the commit (cell creation, insert into `state`,
spawn, insert into `cell_handles`). Split out because the two `await`s
separate the check from the commit into distinct atomic steps. -/
def registerCont (client : RpcClient) (search_key : RpcSearchKey) (start : Uint64)
    (s : EmitterState) : Except Error Bool × EmitterState :=
  match client.get_indexer_tip with
  | Except.error e => (Except.error (Error.custom e), s)
  | Except.ok indexer_tip =>
    if start < indexer_tip.block_number then
      match client.get_header_by_number start with
      | Except.error e => (Except.error (Error.custom e), s)
      | Except.ok header =>
        let tip : IndexerTip :=
          { block_hash := header.hash, block_number := header.inner.number }
        let scan_tip : ScanTip := s.cells.length
        let cell_process : CellProcess := { key := search_key, scan_tip := scan_tip }
        ( Except.ok true,
          { cells := s.cells ++ [tip]
            state := mapInsert search_key scan_tip s.state
            cell_handles := mapInsert search_key cell_process s.cell_handles
            spawned := s.spawned ++ [cell_process] } )
    else
      (Except.ok false, s)

/-- `EmitterRpc::register`, run to completion in isolation: the early
`contains_key` return, then `registerCont`. -/
def register (client : RpcClient) (search_key : RpcSearchKey) (start : Uint64)
    (s : EmitterState) : Except Error Bool × EmitterState :=
  if containsKeyA search_key s.state then
    (Except.ok false, s)
  else
    registerCont client search_key start s

/-- `EmitterRpc::delete`. `none` models the panic of
`self.cell_handles.remove(&search_key).unwrap()` when the handle is
missing for a key that was present in `state`. -/
def delete (search_key : RpcSearchKey) (s : EmitterState) :
    Option (Bool × EmitterState) :=
  if containsKeyA search_key s.state then
    match lookupA search_key s.cell_handles with
    | some _ =>
      some (true,
        { s with
            state := mapRemove search_key s.state
            cell_handles := mapRemove search_key s.cell_handles })
    | none => none
  else
    some (false, s)

/-- `EmitterRpc::info`: iterates `state`, cloning key and value. -/
def info (s : EmitterState) : Except Error (List (RpcSearchKey × ScanTip)) :=
  Except.ok s.state

/-! ### Concrete fixtures used by witnesses -/

def sampleKey : RpcSearchKey :=
  { script := ⟨0⟩, script_type := ScriptType.lock, filter := none }

def sampleProcess : CellProcess := { key := sampleKey, scan_tip := 0 }

/-- A client whose tip is block 10 and whose headers are all available. -/
def sampleClient : RpcClient :=
  { get_indexer_tip := Except.ok { block_hash := ⟨9⟩, block_number := 10 }
    get_header_by_number := fun n => Except.ok { hash := ⟨100 + n⟩, inner := { number := n } } }

/-- A client whose two lookups both fail. -/
def failingClient : RpcClient :=
  { get_indexer_tip := Except.error "boom"
    get_header_by_number := fun _ => Except.error "hdr" }

def emptyState : EmitterState :=
  { cells := [], state := [], cell_handles := [], spawned := [] }

/-- A state where `sampleKey` is registered with its watcher handle. -/
def registeredState : EmitterState :=
  { cells := [{ block_hash := ⟨7⟩, block_number := 5 }]
    state := [(sampleKey, 0)]
    cell_handles := [(sampleKey, sampleProcess)]
    spawned := [sampleProcess] }

/-! ### Association-list lemmas -/

theorem lookupA_mapRemove {α β : Type} [DecidableEq α] (key k : α) (l : List (α × β)) :
    lookupA k (mapRemove key l) = if k = key then none else lookupA k l := by
  induction l with
  | nil => simp [mapRemove, lookupA]
  | cons p rest ih =>
    obtain ⟨a, b⟩ := p
    by_cases hak : a = key
    · subst hak
      have h1 : mapRemove a ((a, b) :: rest) = mapRemove a rest := by
        simp [mapRemove]
      rw [h1, ih]
      by_cases hk : k = a
      · rw [if_pos hk, if_pos hk]
      · rw [if_neg hk, if_neg hk, lookupA, if_neg (fun h => hk h.symm)]
    · have h1 : mapRemove key ((a, b) :: rest) = (a, b) :: mapRemove key rest := by
        simp [mapRemove, hak]
      rw [h1, lookupA, lookupA]
      by_cases hk : a = k
      · subst hk
        rw [if_pos rfl, if_neg hak, if_pos rfl]
      · rw [if_neg hk, ih]
        by_cases hkey : k = key
        · rw [if_pos hkey, if_pos hkey]
        · rw [if_neg hkey, if_neg hkey, if_neg hk]

theorem lookupA_append {α β : Type} [DecidableEq α] (k : α) (l1 l2 : List (α × β)) :
    lookupA k (l1 ++ l2)
      = match lookupA k l1 with
        | some v => some v
        | none => lookupA k l2 := by
  induction l1 with
  | nil => simp [lookupA]
  | cons p rest ih =>
    obtain ⟨a, b⟩ := p
    by_cases hk : a = k
    · simp [lookupA, hk]
    · rw [List.cons_append, lookupA, if_neg hk, ih, lookupA, if_neg hk]

theorem lookupA_mapInsert {α β : Type} [DecidableEq α] (key k : α) (v : β)
    (l : List (α × β)) :
    lookupA k (mapInsert key v l) = if k = key then some v else lookupA k l := by
  rw [mapInsert, lookupA_append, lookupA_mapRemove]
  by_cases hk : k = key
  · simp [hk, lookupA]
  · rw [if_neg hk, if_neg hk]
    cases h : lookupA k l with
    | none => simp [lookupA, Ne.symm hk]
    | some v2 => rfl

theorem mem_iff_lookupA {α β : Type} [DecidableEq α] (l : List (α × β))
    (h : (l.map Prod.fst).Nodup) (k : α) (t : β) :
    (k, t) ∈ l ↔ lookupA k l = some t := by
  induction l with
  | nil => simp [lookupA]
  | cons p rest ih =>
    obtain ⟨a, b⟩ := p
    rw [List.map_cons, List.nodup_cons] at h
    obtain ⟨hnotmem, hrest⟩ := h
    by_cases hk : a = k
    · subst hk
      rw [lookupA, if_pos rfl]
      simp only [List.mem_cons, Prod.mk.injEq, Option.some.injEq]
      constructor
      · rintro (⟨-, rfl⟩ | hmem)
        · rfl
        · exact absurd (List.mem_map_of_mem Prod.fst hmem) hnotmem
      · rintro rfl
        exact Or.inl ⟨trivial, rfl⟩
    · rw [lookupA, if_neg hk, ← ih hrest]
      simp only [List.mem_cons, Prod.mk.injEq]
      constructor
      · rintro (⟨rfl, rfl⟩ | hmem)
        · exact absurd rfl hk
        · exact hmem
      · exact fun hmem => Or.inr hmem

/-! ### The claims -/

/-- C10: `into_key` always yields `filter = Some _`: the input's filter
(converted with the block range) when present, the all-empty default filter
holding the block range when absent; in both cases `with_data = None` and
`group_by_transaction = Some(true)`. -/
theorem into_key_filter_always_some (self : RpcSearchKey)
    (block_range : Option (Uint64 × Uint64)) :
    (self.into_key block_range).filter
        = some ((self.filter.getD RpcSearchKeyFilter.default).into_filter block_range) ∧
    (self.filter = none →
      (self.into_key block_range).filter
        = some { script := none, script_len_range := none, output_data_len_range := none,
                 output_capacity_range := none, block_range := block_range }) ∧
    (self.into_key block_range).with_data = none ∧
    (self.into_key block_range).group_by_transaction = some true := by
  cases h : self.filter <;>
    simp [RpcSearchKey.into_key, h, RpcSearchKeyFilter.into_filter,
      RpcSearchKeyFilter.default]

/-- C10 witness: a key with no filter gets the default filter with the
given block range. -/
theorem into_key_filter_always_some_witness :
    (sampleKey.into_key (some (1, 2))).filter
      = some { script := none, script_len_range := none, output_data_len_range := none,
               output_capacity_range := none, block_range := some (1, 2) } :=
  (into_key_filter_always_some sampleKey (some (1, 2))).2.1 rfl

/-- C1: if the key is already in the registration table, `register`
returns `Ok(false)` and leaves the whole state — both tables and every
existing cell — unchanged. -/
theorem register_already_registered (client : RpcClient) (key : RpcSearchKey)
    (start : Uint64) (s : EmitterState)
    (h : containsKeyA key s.state = true) :
    register client key start s = (Except.ok false, s) := by
  simp [register, h]

/-- C1 witness at a registered key. -/
theorem register_already_registered_witness :
    containsKeyA sampleKey registeredState.state = true ∧
    register sampleClient sampleKey 3 registeredState = (Except.ok false, registeredState) :=
  ⟨by decide,
   register_already_registered sampleClient sampleKey 3 registeredState (by decide)⟩

/-- C2: if the key is absent and the tip query succeeds with
`tip.block_number ≤ start` (i.e. `start >= currentTip`), `register`
returns `Ok(false)` and changes nothing. -/
theorem register_start_at_or_beyond_tip (client : RpcClient) (key : RpcSearchKey)
    (start : Uint64) (s : EmitterState) (tip : IndexerTip)
    (habs : containsKeyA key s.state = false)
    (htip : client.get_indexer_tip = Except.ok tip)
    (hge : tip.block_number ≤ start) :
    register client key start s = (Except.ok false, s) := by
  simp [register, habs, registerCont, htip, Nat.not_lt.mpr hge]

/-- C2 witness: chain tip 10, `register` at start 10 is a no-op `false`. -/
theorem register_start_at_or_beyond_tip_witness :
    register sampleClient sampleKey 10 emptyState = (Except.ok false, emptyState) :=
  register_start_at_or_beyond_tip sampleClient sampleKey 10 emptyState
    { block_hash := ⟨9⟩, block_number := 10 } (by decide) rfl (by decide)

/-- C3: `register` errs exactly when a chain-data lookup errs (the tip
query, or the header query when it is reached); the error wraps the
lookup's message in `Error::Custom` and the state is unchanged. The
already-registered and start-at-or-beyond-tip paths are `Ok(false)`,
never errors (the ← direction forces the key to be absent). -/
theorem register_error_characterization (client : RpcClient) (key : RpcSearchKey)
    (start : Uint64) (s : EmitterState) :
    ((∃ e, (register client key start s).fst = Except.error e) ↔
      (containsKeyA key s.state = false ∧
        ((∃ msg, client.get_indexer_tip = Except.error msg) ∨
          (∃ tip, client.get_indexer_tip = Except.ok tip ∧ start < tip.block_number ∧
            ∃ msg, client.get_header_by_number start = Except.error msg)))) ∧
    (∀ e, (register client key start s).fst = Except.error e →
      (register client key start s).snd = s ∧
      ∃ msg, e = Error.custom msg ∧
        (client.get_indexer_tip = Except.error msg ∨
          client.get_header_by_number start = Except.error msg)) := by
  cases hc : containsKeyA key s.state with
  | true => simp [register, hc]
  | false =>
    cases ht : client.get_indexer_tip with
    | error m => simp [register, registerCont, hc, ht]
    | ok tip =>
      by_cases hlt : start < tip.block_number
      · cases hh : client.get_header_by_number start with
        | error m => simp [register, registerCont, hc, ht, hlt, hh]
        | ok hd => simp [register, registerCont, hc, ht, hlt, hh]
      · simp [register, registerCont, hc, ht, hlt]

/-- C3 witness: a failing tip query yields the custom-wrapped error and an
unchanged state. -/
theorem register_error_characterization_witness :
    (register failingClient sampleKey 3 emptyState).snd = emptyState ∧
    ∃ msg, Error.custom "boom" = Error.custom msg ∧
      (failingClient.get_indexer_tip = Except.error msg ∨
        failingClient.get_header_by_number 3 = Except.error msg) :=
  (register_error_characterization failingClient sampleKey 3 emptyState).2
    (Error.custom "boom") rfl

/-- C4: on the success path (key absent, `start < tip.block_number`,
both lookups succeed) `register` returns `Ok(true)`, appends one new cell
seeded with exactly the looked-up header's hash and number, maps the key
to that cell in `state`, and stores a handle whose spawned `CellProcess`
is bound to the same key and the same cell. -/
theorem register_success (client : RpcClient) (key : RpcSearchKey) (start : Uint64)
    (s : EmitterState) (tip : IndexerTip) (header : HeaderView)
    (habs : containsKeyA key s.state = false)
    (htip : client.get_indexer_tip = Except.ok tip)
    (hlt : start < tip.block_number)
    (hheader : client.get_header_by_number start = Except.ok header) :
    (register client key start s).fst = Except.ok true ∧
    (register client key start s).snd.cells
      = s.cells ++ [{ block_hash := header.hash, block_number := header.inner.number }] ∧
    lookupA key (register client key start s).snd.state = some s.cells.length ∧
    lookupA key (register client key start s).snd.cell_handles
      = some { key := key, scan_tip := s.cells.length } ∧
    (register client key start s).snd.spawned
      = s.spawned ++ [{ key := key, scan_tip := s.cells.length }] := by
  simp [register, habs, registerCont, htip, hlt, hheader, lookupA_mapInsert]

/-- C4 witness: registering a fresh key at block 5 against tip 10. -/
theorem register_success_witness :
    (register sampleClient sampleKey 5 emptyState).fst = Except.ok true ∧
    (register sampleClient sampleKey 5 emptyState).snd.cells
      = [{ block_hash := ⟨105⟩, block_number := 5 }] ∧
    lookupA sampleKey (register sampleClient sampleKey 5 emptyState).snd.state = some 0 ∧
    lookupA sampleKey (register sampleClient sampleKey 5 emptyState).snd.cell_handles
      = some { key := sampleKey, scan_tip := 0 } ∧
    (register sampleClient sampleKey 5 emptyState).snd.spawned
      = [{ key := sampleKey, scan_tip := 0 }] :=
  register_success sampleClient sampleKey 5 emptyState
    { block_hash := ⟨9⟩, block_number := 10 }
    { hash := ⟨105⟩, inner := { number := 5 } }
    (by decide) rfl (by decide) rfl

/-- C5 counterexample: on a state where the key sits in the registration
table but has no watcher handle, `delete` hits the
`cell_handles.remove(..).unwrap()` panic (modelled as `none`) — so
"delete never fails, for any state of the tables" is false as stated. -/
theorem delete_panics_without_handle :
    delete sampleKey
      { cells := [{ block_hash := ⟨7⟩, block_number := 5 }]
        state := [(sampleKey, 0)]
        cell_handles := []
        spawned := [] } = none := by
  decide

/-- C5 amended: on any state where every registered key has a watcher
handle (the invariant the operations maintain), `delete` never fails:
it returns `Ok(true)` and removes the key from both tables when the key
is present, and `Ok(false)` leaving the state unchanged when absent. -/
theorem delete_spec (key : RpcSearchKey) (s : EmitterState)
    (hinv : containsKeyA key s.state = true → containsKeyA key s.cell_handles = true) :
    (containsKeyA key s.state = true →
      delete key s = some (true,
        { s with
            state := mapRemove key s.state
            cell_handles := mapRemove key s.cell_handles })) ∧
    (containsKeyA key s.state = false → delete key s = some (false, s)) := by
  constructor
  · intro h
    have h2 := hinv h
    rw [containsKeyA, Option.isSome_iff_exists] at h2
    obtain ⟨cp, hcp⟩ := h2
    simp [delete, h, hcp]
  · intro h
    simp [delete, h]

/-- C5 witness: deleting a registered key with its handle present. -/
theorem delete_spec_witness :
    delete sampleKey registeredState
      = some (true,
        { registeredState with
            state := mapRemove sampleKey registeredState.state
            cell_handles := mapRemove sampleKey registeredState.cell_handles }) :=
  (delete_spec sampleKey registeredState (fun _ => by decide)).1 (by decide)

/-- C6: `delete` is idempotent: once a `delete` for a key has returned
(with either boolean), a second `delete` for the same key returns
`Ok(false)` and leaves the state exactly as the first call left it. -/
theorem delete_idempotent (key : RpcSearchKey) (s : EmitterState) (b : Bool)
    (s2 : EmitterState) (h : delete key s = some (b, s2)) :
    delete key s2 = some (false, s2) := by
  have habs : containsKeyA key s2.state = false := by
    by_cases hc : containsKeyA key s.state
    · rw [delete, if_pos hc] at h
      cases hcp : lookupA key s.cell_handles with
      | none => rw [hcp] at h; exact absurd h (by simp)
      | some cp =>
        rw [hcp] at h
        have hs2 : s2 = { s with
            state := mapRemove key s.state
            cell_handles := mapRemove key s.cell_handles } :=
          (congrArg Prod.snd (Option.some.inj h)).symm
        rw [hs2]
        show (lookupA key (mapRemove key s.state)).isSome = false
        rw [lookupA_mapRemove, if_pos rfl]
        rfl
    · rw [delete, if_neg hc] at h
      have hs2 : s2 = s := (congrArg Prod.snd (Option.some.inj h)).symm
      rw [hs2]
      exact Bool.not_eq_true _ ▸ (by simpa using hc)
  rw [delete, habs]
  simp

/-- C6 witness: a second delete after a successful one is a no-op `false`. -/
theorem delete_idempotent_witness :
    delete sampleKey
      { cells := [{ block_hash := ⟨7⟩, block_number := 5 }]
        state := [], cell_handles := [], spawned := [sampleProcess] }
      = some (false,
        { cells := [{ block_hash := ⟨7⟩, block_number := 5 }]
          state := [], cell_handles := [], spawned := [sampleProcess] }) :=
  delete_idempotent sampleKey registeredState true
    { cells := [{ block_hash := ⟨7⟩, block_number := 5 }]
      state := [], cell_handles := [], spawned := [sampleProcess] }
    (by decide)

/-- The coupling invariant between the two tables: a watcher handle exists
for a key exactly when the key is registered. -/
def sameKeys (s : EmitterState) : Prop :=
  ∀ k, containsKeyA k s.state = containsKeyA k s.cell_handles

/-- C7: every operation preserves the handle/registration coupling: if the
two tables have the same key set before a `register` or a (returning)
`delete`, they do after, and `info` reads the registration table without
modifying anything. -/
theorem ops_preserve_sameKeys (client : RpcClient) (key key2 : RpcSearchKey)
    (start : Uint64) (s : EmitterState) (h : sameKeys s) :
    sameKeys (register client key start s).snd ∧
    (∀ b s2, delete key2 s = some (b, s2) → sameKeys s2) ∧
    info s = Except.ok s.state := by
  refine ⟨?_, ?_, rfl⟩
  · by_cases hc : containsKeyA key s.state
    · simpa [register, hc] using h
    · cases ht : client.get_indexer_tip with
      | error m => simpa [register, registerCont, hc, ht] using h
      | ok tip =>
        by_cases hlt : start < tip.block_number
        · cases hh : client.get_header_by_number start with
          | error m => simpa [register, registerCont, hc, ht, hlt, hh] using h
          | ok hd =>
            intro k
            have hgoal : (register client key start s).snd.state
                  = mapInsert key s.cells.length s.state ∧
                (register client key start s).snd.cell_handles
                  = mapInsert key { key := key, scan_tip := s.cells.length }
                      s.cell_handles := by
              simp [register, registerCont, hc, ht, hlt, hh]
            rw [containsKeyA, containsKeyA, hgoal.1, hgoal.2, lookupA_mapInsert,
              lookupA_mapInsert]
            by_cases hk : k = key
            · rw [if_pos hk, if_pos hk]
              rfl
            · rw [if_neg hk, if_neg hk]
              exact h k
        · simpa [register, registerCont, hc, ht, hlt] using h
  · intro b s2 hdel
    by_cases hc : containsKeyA key2 s.state
    · rw [delete, if_pos hc] at hdel
      cases hcp : lookupA key2 s.cell_handles with
      | none => rw [hcp] at hdel; exact absurd hdel (by simp)
      | some cp =>
        rw [hcp] at hdel
        have hs2 : s2 = { s with
            state := mapRemove key2 s.state
            cell_handles := mapRemove key2 s.cell_handles } :=
          (congrArg Prod.snd (Option.some.inj hdel)).symm
        subst hs2
        intro k
        show containsKeyA k (mapRemove key2 s.state)
            = containsKeyA k (mapRemove key2 s.cell_handles)
        rw [containsKeyA, containsKeyA, lookupA_mapRemove, lookupA_mapRemove]
        by_cases hk : k = key2
        · rw [if_pos hk, if_pos hk]
          rfl
        · rw [if_neg hk, if_neg hk]
          exact h k
    · rw [delete, if_neg hc] at hdel
      have hs2 : s2 = s := (congrArg Prod.snd (Option.some.inj hdel)).symm
      rw [hs2]
      exact h

/-- C7 witness: starting from the empty state (equal key sets), a
successful register keeps the key sets equal, and so does delete. -/
theorem ops_preserve_sameKeys_witness :
    sameKeys (register sampleClient sampleKey 5 emptyState).snd ∧
    (∀ b s2, delete sampleKey emptyState = some (b, s2) → sameKeys s2) ∧
    info emptyState = Except.ok emptyState.state :=
  ops_preserve_sameKeys sampleClient sampleKey sampleKey 5 emptyState (fun _ => rfl)

/-- C8: the failing interleaving of two concurrent `register` calls for
the same key. Both calls execute the atomic `contains_key` check against
the initial state (the check passes for both, the commit being separated
from it by the two `await`ed lookups), then both run the rest of the body:
both return `Ok(true)` and two watchers are spawned, refuting the claimed
atomic insert-if-absent behaviour. -/
theorem register_race_two_watchers :
    containsKeyA sampleKey emptyState.state = false ∧
    (registerCont sampleClient sampleKey 5 emptyState).fst = Except.ok true ∧
    (registerCont sampleClient sampleKey 5
        (registerCont sampleClient sampleKey 5 emptyState).snd).fst = Except.ok true ∧
    (registerCont sampleClient sampleKey 5
        (registerCont sampleClient sampleKey 5 emptyState).snd).snd.spawned.length
      = 2 := by
  exact ⟨rfl, rfl, rfl, rfl⟩

/-- C9: `info` never fails; on a duplicate-free registration table (the
only kind the `DashMap` ever holds) it returns one pair per registered
key, each pair carrying exactly the `ScanTip` cell stored for that key. -/
theorem info_enumerates (s : EmitterState)
    (h : (s.state.map Prod.fst).Nodup) :
    ∃ l, info s = Except.ok l ∧ (l.map Prod.fst).Nodup ∧
      (∀ k t, (k, t) ∈ l ↔ lookupA k s.state = some t) ∧
      (∀ k, containsKeyA k s.state = true ↔ ∃ t, (k, t) ∈ l) := by
  refine ⟨s.state, rfl, h, fun k t => mem_iff_lookupA s.state h k t, fun k => ?_⟩
  rw [containsKeyA, Option.isSome_iff_exists]
  constructor
  · rintro ⟨t, ht⟩
    exact ⟨t, (mem_iff_lookupA s.state h k t).mpr ht⟩
  · rintro ⟨t, ht⟩
    exact ⟨t, (mem_iff_lookupA s.state h k t).mp ht⟩

/-- C9 witness: enumerating a one-key table. -/
theorem info_enumerates_witness :
    ∃ l, info registeredState = Except.ok l ∧ (l.map Prod.fst).Nodup ∧
      (∀ k t, (k, t) ∈ l ↔ lookupA k registeredState.state = some t) ∧
      (∀ k, containsKeyA k registeredState.state = true ↔ ∃ t, (k, t) ∈ l) :=
  info_enumerates registeredState (by decide)

end Emitter
